import Mathlib

/-!
Verification of the mini-ai-assistant repository.

Shallow embedding of the Python sources:
  - `src/task_manager.py`  — the Task Registry, a JSON-file-backed task list;
  - `src/database.py`      — the Persistent Store (SQLite tables for tasks
                             and conversation history);
  - `src/memory.py`        — the Conversation Buffer over the Store;
  - `src/gemini_client.py` — the Model Gateway;
  - `src/main.py` / `src/web_ui.py` — the CLI and web chat pipelines.

Conventions of the embedding:
  - SQLite timestamps are modelled as abstract `Nat` instants supplied by the
    environment (`now` parameters); within one run instants are taken strictly
    increasing, so ORDER BY created_at agrees with insertion order and lists
    are kept in insertion order (conversation history is kept newest-first,
    matching the DESC retrieval order of the source).
  - Fallible external effects (file I/O inside task operations, the hosted
    model API) are explicit: operations that may raise are `Except`-valued or
    are parameters (oracles) of the function under study.
  - Python truthiness of strings (`if s:`) is `s ≠ ""`; `str.strip()` is
    `pyStrip` below.
-/

namespace MiniAssistant

/-- Whitespace characters stripped by Python's `str.strip()` (ASCII range). -/
def pyIsSpace (c : Char) : Bool :=
  c = ' ' || c = '\t' || c = '\n' || c = '\r' || c = '\x0b' || c = '\x0c'

/-- Python's `str.strip()`: drop leading and trailing whitespace. -/
def pyStrip (s : String) : String :=
  String.mk (((s.toList.dropWhile pyIsSpace).reverse.dropWhile pyIsSpace).reverse)

/-- A dynamically typed argument value as received from the model's
function-call payload (`src/gemini_client.py`, `dict(func_call.args)`). -/
inductive PyVal where
  | str (s : String)
  | int (n : Int)
  | pynone
  deriving DecidableEq, Repr

/-- Python `str(v)` for the values above. -/
def PyVal.toStr : PyVal → String
  | .str s => s
  | .int n => toString n
  | .pynone => "None"

/-! ## Task Registry (`src/task_manager.py`)

Tasks live in `storage.json`; `load_tasks`/`save_tasks` (de)serialize the
whole list.  The embedding folds load/save into explicit state passing: a
`JsonState` is the current content of `storage.json`. -/

/-- A task row as stored in `storage.json`: `{"id": .., "name": .., "completed": ..}`. -/
structure Task where
  id : Int
  name : String
  completed : Bool
  deriving DecidableEq, Repr

/-- The content of `storage.json` (the Task Registry's backing store). -/
structure JsonState where
  tasks : List Task
  deriving DecidableEq, Repr

/-- The empty `storage.json` (missing file loads as the empty list). -/
def json0 : JsonState := ⟨[]⟩

/-- `task_manager._get_next_id`: 1 on an empty list, otherwise the maximum
existing id plus one. -/
def _get_next_id (tasks : List Task) : Int :=
  match tasks.map Task.id with
  | [] => 1
  | i :: is => is.foldl max i + 1

/-- `task_manager.add_task`: reject empty / whitespace-only names, otherwise
append a fresh task with id `_get_next_id` and the stripped name. -/
def add_task (task_name : String) (s : JsonState) : Option Task × JsonState :=
  if task_name = "" || pyStrip task_name = "" then
    (none, s)
  else
    let new_task : Task := ⟨_get_next_id s.tasks, pyStrip task_name, false⟩
    (some new_task, ⟨s.tasks ++ [new_task]⟩)

/-- `task_manager.list_tasks`: return the loaded task list. -/
def list_tasks (s : JsonState) : List Task :=
  s.tasks

/-- Python `==` between a stored task id and a function-call argument value. -/
def idEqVal (i : Int) : PyVal → Bool
  | .int n => i = n
  | _ => false

/-- Core of `task_manager.complete_task`: walk the list, set `completed` on
the first task whose id compares equal to the argument, return it. -/
def completeTaskList (v : PyVal) : List Task → Option Task × List Task
  | [] => (none, [])
  | t :: ts =>
    if idEqVal t.id v then
      let t' : Task := { t with completed := true }
      (some t', t' :: ts)
    else
      let r := completeTaskList v ts
      (r.1, t :: r.2)

/-- `task_manager.complete_task` applied to a raw argument value. -/
def complete_taskV (v : PyVal) (s : JsonState) : Option Task × JsonState :=
  let r := completeTaskList v s.tasks
  (r.1, ⟨r.2⟩)

/-- `task_manager.complete_task` with the usual integer id. -/
def complete_task (task_id : Int) (s : JsonState) : Option Task × JsonState :=
  complete_taskV (.int task_id) s

/-- `task_manager.delete_task`: remove every task with the given id; report
whether the list shrank (the file is rewritten only in that case). -/
def delete_task (task_id : Int) (s : JsonState) : Bool × JsonState :=
  let kept := s.tasks.filter (fun t => ¬ t.id = task_id)
  if kept.length < s.tasks.length then
    (true, ⟨kept⟩)
  else
    (false, s)

/-- `task_manager.get_task_by_id`. -/
def get_task_by_id (task_id : Int) (s : JsonState) : Option Task :=
  s.tasks.find? (fun t => t.id = task_id)

/-- One line of `task_manager.format_tasks_for_display`. -/
def formatTaskLine (t : Task) : String :=
  "[" ++ toString t.id ++ "] " ++ (if t.completed then "✓" else "○") ++ " " ++ t.name

/-- `task_manager.format_tasks_for_display`. -/
def format_tasks_for_display (tasks : List Task) : String :=
  if tasks.isEmpty then
    "No tasks found."
  else
    String.intercalate "\n" (tasks.map formatTaskLine)

/-! ## Persistent Store (`src/database.py`)

`DbState` is the content of `assistant.db`: the `tasks` table (in creation
order; `nextId` is the AUTOINCREMENT counter) and the `conversation_history`
table, kept newest-first to mirror the `ORDER BY created_at DESC` retrieval
order used by every query. -/

/-- A row of the `tasks` table (`created_at` is only used for the ASC listing
order, which the list position already encodes; `completed_at` keeps the
instant of the last completing UPDATE). -/
structure DbTask where
  id : Nat
  name : String
  completed : Bool
  completedAt : Option Nat
  deriving DecidableEq, Repr

/-- The task dictionary returned by the `db_*` task operations:
`{"id", "name", "completed"}`. -/
structure TaskView where
  id : Nat
  name : String
  completed : Bool
  deriving DecidableEq, Repr

/-- A row of the `conversation_history` table as returned to callers. -/
structure Msg where
  role : String
  content : String
  deriving DecidableEq, Repr

/-- The SQLite database: tasks in creation (rowid) order, history
newest-first, and the AUTOINCREMENT counter for task ids. -/
structure DbState where
  tasks : List DbTask
  nextId : Nat
  history : List Msg
  deriving DecidableEq, Repr

/-- A freshly initialised database (`init_db` on a missing file). -/
def db0 : DbState := ⟨[], 1, []⟩

/-- The view of a stored task row. -/
def DbTask.view (t : DbTask) : TaskView :=
  ⟨t.id, t.name, t.completed⟩

/-- `database.db_add_task`: reject empty / whitespace-only names, otherwise
INSERT a row whose id is the AUTOINCREMENT counter. -/
def db_add_task (task_name : String) (s : DbState) : Option TaskView × DbState :=
  if task_name = "" || pyStrip task_name = "" then
    (none, s)
  else
    let row : DbTask := ⟨s.nextId, pyStrip task_name, false, none⟩
    (some row.view, { s with tasks := s.tasks ++ [row], nextId := s.nextId + 1 })

/-- `database.db_list_tasks`: all rows in creation order. -/
def db_list_tasks (s : DbState) : List TaskView :=
  s.tasks.map DbTask.view

/-- The effect of the completing UPDATE on one row. -/
def completeUpd (task_id now : Nat) (t : DbTask) : DbTask :=
  if t.id = task_id then { t with completed := true, completedAt := some now } else t

/-- `database.db_complete_task` at instant `now`: UPDATE every row matching
the id (set `completed`, re-stamp `completed_at`), then SELECT the row back;
`none` when the id is absent. -/
def db_complete_task (task_id : Nat) (now : Nat) (s : DbState) :
    Option TaskView × DbState :=
  let updated := s.tasks.map (completeUpd task_id now)
  match updated.find? (fun t => t.id = task_id) with
  | some t => (some t.view, { s with tasks := updated })
  | none => (none, { s with tasks := updated })

/-- `database.db_delete_task`. -/
def db_delete_task (task_id : Nat) (s : DbState) : Bool × DbState :=
  let kept := s.tasks.filter (fun t => ¬ t.id = task_id)
  (kept.length < s.tasks.length, { s with tasks := kept })

/-- `database.db_get_task`. -/
def db_get_task (task_id : Nat) (s : DbState) : Option TaskView :=
  (s.tasks.find? (fun t => t.id = task_id)).map DbTask.view

/-- `database.db_clear_completed_tasks`: DELETE WHERE completed = 1; the
returned rowcount is the number of deleted rows. -/
def db_clear_completed_tasks (s : DbState) : Nat × DbState :=
  ((s.tasks.filter (fun t => t.completed)).length,
   { s with tasks := s.tasks.filter (fun t => ¬ t.completed) })

/-- `database.db_get_history`: the `limit` most recent messages, reversed
into chronological (ascending creation) order. -/
def db_get_history (limit : Nat) (s : DbState) : List Msg :=
  (s.history.take limit).reverse

/-- `database.db_append_message`: INSERT the new message, DELETE every row
not among the `limit` most recent, return the retained history. -/
def db_append_message (role content : String) (limit : Nat) (s : DbState) :
    List Msg × DbState :=
  let s' : DbState := { s with history := (Msg.mk role content :: s.history).take limit }
  (db_get_history limit s', s')

/-- `database.db_clear_history`. -/
def db_clear_history (s : DbState) : Bool × DbState :=
  (true, { s with history := [] })

/-- The dictionary returned by `database.db_get_stats` (counts are Python
ints; `pending` is computed by subtraction). -/
structure Stats where
  total_tasks : Int
  completed_tasks : Int
  pending_tasks : Int
  conversation_messages : Int
  deriving DecidableEq, Repr

/-- `database.db_get_stats`. -/
def db_get_stats (s : DbState) : Stats :=
  let total : Int := s.tasks.length
  let completed : Int := (s.tasks.filter (fun t => t.completed)).length
  { total_tasks := total
    completed_tasks := completed
    pending_tasks := total - completed
    conversation_messages := s.history.length }

/-! ## Conversation Buffer (`src/memory.py`) -/

/-- `memory.MAX_MESSAGES`. -/
def MAX_MESSAGES : Nat := 10

/-- `memory.append_message`: delegate to the Store with the fixed bound. -/
def append_message (role content : String) (s : DbState) : List Msg × DbState :=
  db_append_message role content MAX_MESSAGES s

/-- `memory.get_history`: delegate to the Store with the fixed bound. -/
def get_history (s : DbState) : List Msg :=
  db_get_history MAX_MESSAGES s

/-! ## Model Gateway (`src/gemini_client.py`)

The hosted model is external: the raw wire call is an oracle parameter of
type `GeminiOracle`, returning either a raw response or the description of a
raised exception. -/

/-- `gemini_client.FunctionCallResult`. -/
structure FunctionCallResult where
  name : String
  args : List (String × PyVal)
  deriving DecidableEq, Repr

/-- `gemini_client.GeminiResponse`. -/
structure GeminiResponse where
  text : Option String
  function_call : Option FunctionCallResult
  is_function_call : Bool
  deriving DecidableEq, Repr

/-- One content turn of the external request (`types.Content`). -/
structure Content where
  role : String
  content : String
  deriving DecidableEq, Repr

/-- A `function_call` payload inside a response part. -/
structure RawFunctionCall where
  name : Option String
  args : Option (List (String × PyVal))
  deriving DecidableEq, Repr

/-- One part of a response candidate. -/
structure RawPart where
  function_call : Option RawFunctionCall
  deriving DecidableEq, Repr

/-- One response candidate (`content.parts` may be absent). -/
structure RawCandidate where
  parts : Option (List RawPart)
  deriving DecidableEq, Repr

/-- The raw API response: candidates plus the SDK's aggregated `text`. -/
structure RawResponse where
  candidates : List RawCandidate
  text : Option String
  deriving DecidableEq, Repr

/-- The external `generate_content` call: either a raw response or a raised
exception, rendered as its `str(e)` description. -/
def GeminiOracle : Type :=
  List Content → Except String RawResponse

/-- `gemini_client._convert_history_to_gemini_format`: map the internal
`assistant` role to the external `model` role. -/
def _convert_history_to_gemini_format (history : List Msg) : List Content :=
  history.map (fun m => ⟨if m.role = "assistant" then "model" else m.role, m.content⟩)

/-- The first part of the first candidate that carries a function call with a
truthy name (the parsing loop of `send_message`). -/
def findFunctionCall (r : RawResponse) : Option RawFunctionCall :=
  match r.candidates.head? with
  | none => none
  | some candidate =>
    match candidate.parts with
    | none => none
    | some parts =>
      parts.findSome? (fun part =>
        match part.function_call with
        | some fc => if fc.name.getD "" ≠ "" then some fc else none
        | none => none)

/-- Response parsing of `gemini_client.send_message`: a function-call part
short-circuits; otherwise the advisory is the stripped aggregated text
(empty string if none). -/
def parseRawResponse (r : RawResponse) : GeminiResponse :=
  match findFunctionCall r with
  | some fc =>
    { text := none
      function_call := some ⟨fc.name.getD "", fc.args.getD []⟩
      is_function_call := true }
  | none =>
    { text := some (if (r.text.getD "") ≠ "" then pyStrip (r.text.getD "") else "")
      function_call := none
      is_function_call := false }

/-- The fixed advisory text returned when no credentials were configured. -/
def adviceUnconfigured : String :=
  "API not configured. Please set GEMINI_API_KEY."

/-- `gemini_client.send_message`.  `client` is the module-global `_client`
(`none` when `configure_api` never succeeded); `oracle` is the external
API call. -/
def send_message (client : Option Unit) (oracle : GeminiOracle)
    (message : String) (history : List Msg) : GeminiResponse :=
  match client with
  | none => { text := some adviceUnconfigured, function_call := none, is_function_call := false }
  | some _ =>
    let contents := _convert_history_to_gemini_format history ++ [⟨"user", message⟩]
    match oracle contents with
    | .error e =>
      { text := some ("Error communicating with Gemini: " ++ e)
        function_call := none
        is_function_call := false }
    | .ok raw => parseRawResponse raw

/-- `gemini_client.create_function_response` (built by `main.py` but never
used afterwards). -/
def create_function_response (function_name result : String) :
    List (String × String × String) :=
  [("function", function_name, result)]

/-! ## Dispatch Loop (`execute_function_call` in `src/main.py` and,
verbatim-identical, in `src/web_ui.py`)

The three Task Registry calls sit inside a `try`/`except` that converts any
raised exception into a diagnostic string; the embedding therefore routes
them through an `Except`-valued operation record.  `pureTaskOps` is the
non-raising instantiation by the pure task operations above (its `error`
cases are the `AttributeError`s Python itself would raise on non-string
task names). -/

/-- The Task Registry operations as callable (and possibly raising) actions. -/
structure TaskOps where
  addTask : PyVal → JsonState → Except String (Option Task × JsonState)
  listTasks : JsonState → Except String (List Task × JsonState)
  completeTask : PyVal → JsonState → Except String (Option Task × JsonState)

/-- The actual `task_manager` operations: `add_task` on a non-string raises
`AttributeError` unless the value is falsy (`None`, `0`), in which case the
`not task_name` guard returns `None` first. -/
def pureTaskOps : TaskOps where
  addTask v s :=
    match v with
    | .str nm => .ok (add_task nm s)
    | .int n =>
      if n = 0 then .ok (none, s)
      else .error "'int' object has no attribute 'strip'"
    | .pynone => .ok (none, s)
  listTasks s := .ok (list_tasks s, s)
  completeTask v s := .ok (complete_taskV v s)

/-- `func_args.get(key)`. -/
def lookupArg (args : List (String × PyVal)) (key : String) : Option PyVal :=
  (args.find? (fun kv => kv.1 = key)).map (fun kv => kv.2)

/-- `execute_function_call` (identical in `src/main.py` and `src/web_ui.py`):
closed dispatch over the three function names, diagnostics for unknown
names, missing arguments, absent ids, and caught exceptions. -/
def execute_function_call (ops : TaskOps) (fc : FunctionCallResult)
    (s : JsonState) : String × JsonState :=
  if fc.name = "add_task" then
    match ops.addTask ((lookupArg fc.args "task_name").getD (.str "")) s with
    | .ok (some t, s') =>
      ("Task added successfully with ID " ++ toString t.id ++ ": " ++ t.name, s')
    | .ok (none, s') => ("Failed to add task. Task name may be empty.", s')
    | .error e => ("Error executing add_task: " ++ e, s)
  else if fc.name = "list_tasks" then
    match ops.listTasks s with
    | .ok (ts, s') => (format_tasks_for_display ts, s')
    | .error e => ("Error executing list_tasks: " ++ e, s)
  else if fc.name = "complete_task" then
    match lookupArg fc.args "task_id" with
    | none => ("Error: No task_id provided.", s)
    | some .pynone => ("Error: No task_id provided.", s)
    | some v =>
      match ops.completeTask v s with
      | .ok (some t, s') => ("Task completed: " ++ t.name, s')
      | .ok (none, s') => ("Task with ID " ++ v.toStr ++ " not found.", s')
      | .error e => ("Error executing complete_task: " ++ e, s)
  else
    ("Unknown function: " ++ fc.name, s)

/-! ## The two chat pipelines (`src/main.py` and `src/web_ui.py`)

Both embeddings model one chat turn after input collection (the CLI's
stripping/empty-skip/direct-command interception and the web handler's
stripping/empty-400 both happen before this point).  The gateway `send`, as
seen by the front ends, is an oracle from (message, history) to a parsed
response; both front ends call the same `send_message`, so abstracting it as
one shared oracle is faithful. -/

/-- The gateway `send` as the front ends see it. -/
def SendOracle : Type :=
  String → List Msg → GeminiResponse

/-- Combined program state: `storage.json` plus `assistant.db`. -/
structure SysState where
  json : JsonState
  db : DbState
  deriving DecidableEq, Repr

/-- `main.process_ai_response`: execute the function call, build the (unused)
function-response message, resubmit the result with the current history, fall
back to the raw result when the follow-up has no truthy text. -/
def process_ai_response (o : SendOracle) (resp : GeminiResponse) (st : SysState) :
    String × SysState :=
  match resp.is_function_call, resp.function_call with
  | true, some fc =>
    let r := execute_function_call pureTaskOps fc st.json
    let _fr := create_function_response fc.name r.1
    let history := get_history st.db
    let follow := o ("Function executed. Result: " ++ r.1) history
    (match follow.text with
     | some t => if t ≠ "" then t else r.1
     | none => r.1,
     ⟨r.2, st.db⟩)
  | _, _ =>
    match resp.text with
    | some t => if t ≠ "" then (t, st) else ("I'm not sure how to respond to that.", st)
    | none => ("I'm not sure how to respond to that.", st)

/-- `web_ui.process_chat_response`: same as `process_ai_response` without the
dead `create_function_response` binding. -/
def process_chat_response (o : SendOracle) (resp : GeminiResponse) (st : SysState) :
    String × SysState :=
  match resp.is_function_call, resp.function_call with
  | true, some fc =>
    let r := execute_function_call pureTaskOps fc st.json
    let history := get_history st.db
    let follow := o ("Function executed. Result: " ++ r.1) history
    (match follow.text with
     | some t => if t ≠ "" then t else r.1
     | none => r.1,
     ⟨r.2, st.db⟩)
  | _, _ =>
    match resp.text with
    | some t => if t ≠ "" then (t, st) else ("I'm not sure how to respond to that.", st)
    | none => ("I'm not sure how to respond to that.", st)

/-- One chat turn of `main.run_cli`: append the user message, fetch the
post-append history, send the message together with that full history,
process, append the final text. -/
def run_cli_turn (o : SendOracle) (user_input : String) (st : SysState) :
    String × SysState :=
  let db1 := (append_message "user" user_input st.db).2
  let history := get_history db1
  let resp := o user_input history
  let r := process_ai_response o resp ⟨st.json, db1⟩
  let db3 := (append_message "model" r.1 r.2.db).2
  (r.1, ⟨r.2.json, db3⟩)

/-- One `POST /api/chat` turn of `web_ui.api_chat`: identical shape, except
that the history passed to the initial send drops its last element
(`history[:-1]`, excluding the just-appended user message). -/
def api_chat (o : SendOracle) (user_message : String) (st : SysState) :
    String × SysState :=
  let db1 := (append_message "user" user_message st.db).2
  let history := get_history db1
  let resp := o user_message history.dropLast
  let r := process_chat_response o resp ⟨st.json, db1⟩
  let db3 := (append_message "model" r.1 r.2.db).2
  (r.1, ⟨r.2.json, db3⟩)

/-! ## Auxiliary definitions used by the claim theorems -/

/-- The Task Registry's add as run over the combined program state: the
source (`task_manager.add_task`) reads and writes only `storage.json` and
never imports `database`, so the Store component passes through untouched. -/
def registry_add_task (nm : String) (st : SysState) : Option Task × SysState :=
  let r := add_task nm st.json
  (r.1, ⟨r.2, st.db⟩)

/-- Iterated `db_append_message` with a fixed retention bound. -/
def appendAll (limit : Nat) (ms : List Msg) (s : DbState) : DbState :=
  ms.foldl (fun st m => (db_append_message m.role m.content limit st).2) s

/-- One Task Registry mutation, for stating store-lifetime invariants. -/
inductive TaskOp where
  | addT (name : String)
  | completeT (tid : Int)
  | deleteT (tid : Int)

/-- Run one Task Registry mutation on `storage.json`. -/
def applyOp : TaskOp → JsonState → JsonState
  | .addT nm, s => (add_task nm s).2
  | .completeT tid, s => (complete_task tid s).2
  | .deleteT tid, s => (delete_task tid s).2

/-- Run a sequence of Task Registry mutations from the empty store. -/
def runOps (ops : List TaskOp) : JsonState :=
  ops.foldl (fun s op => applyOp op s) json0

/-- A gateway oracle whose text reply encodes the length of the history it
was shown. -/
def lenOracle : SendOracle :=
  fun _ h => ⟨some ("L" ++ toString h.length), none, false⟩

/-- A gateway oracle that ignores its input. -/
def constOracle : SendOracle :=
  fun _ _ => ⟨some "ok", none, false⟩

/-- An external API call that always raises. -/
def oracleBoom : GeminiOracle :=
  fun _ => .error "boom"

/-- Task operations that always raise (a storage-engine failure). -/
def failingOps : TaskOps where
  addTask _ _ := .error "disk full"
  listTasks _ := .error "disk full"
  completeTask _ _ := .error "disk full"

/-! ## Claim theorems -/

/-- C1: the Task Registry is claimed to be a pure delegation layer over the
Persistent Store's task operations.  In the code it is not: `add_task`
succeeds over the combined state while the Store's task table stays empty
(`db_list_tasks` and `db_get_stats` still see nothing), whereas the Store's
own `db_add_task` would have recorded the row.  The first conjunct shows the
Registry add leaves the Store component of every state untouched. -/
theorem c1_registry_bypasses_store :
    (∀ (nm : String) (st : SysState), (registry_add_task nm st).2.db = st.db) ∧
    (registry_add_task "buy milk" ⟨json0, db0⟩).1
      = some { id := 1, name := "buy milk", completed := false } ∧
    db_list_tasks (registry_add_task "buy milk" ⟨json0, db0⟩).2.db = [] ∧
    (db_get_stats (registry_add_task "buy milk" ⟨json0, db0⟩).2.db).total_tasks = 0 ∧
    db_list_tasks (db_add_task "buy milk" db0).2
      = [{ id := 1, name := "buy milk", completed := false }] :=
  ⟨fun _ _ => rfl, by decide, by decide, by decide, by decide⟩

/-- C5: `send_message` never raises.  Unconfigured, it returns the fixed
advisory text, and its result does not depend on the external service at
all; configured, an external exception is converted into a text response
embedding the error description. -/
theorem c5_send_never_raises (oracle : GeminiOracle) (message : String)
    (history : List Msg) :
    (∀ oracle2 : GeminiOracle,
      send_message none oracle message history
        = { text := some adviceUnconfigured, function_call := none,
            is_function_call := false } ∧
      send_message none oracle message history
        = send_message none oracle2 message history) ∧
    (∀ e : String,
      oracle (_convert_history_to_gemini_format history ++ [⟨"user", message⟩]) = .error e →
      send_message (some ()) oracle message history
        = { text := some ("Error communicating with Gemini: " ++ e),
            function_call := none, is_function_call := false }) := by
  refine ⟨fun _ => ⟨rfl, rfl⟩, fun e h => ?_⟩
  simp only [send_message]
  rw [h]

/-- Witness for C5 at concrete inputs: an always-raising external call is
converted to text, and the unconfigured gateway returns the advisory. -/
theorem c5_send_never_raises_witness :
    send_message (some ()) oracleBoom "hi" []
      = { text := some "Error communicating with Gemini: boom",
          function_call := none, is_function_call := false } ∧
    send_message none oracleBoom "hi" []
      = { text := some adviceUnconfigured, function_call := none,
          is_function_call := false } :=
  ⟨(c5_send_never_raises oracleBoom "hi" []).2 "boom" rfl,
   ((c5_send_never_raises oracleBoom "hi" []).1 oracleBoom).1⟩

/-- C8: an empty or whitespace-only task name creates no row, assigns no
identifier, returns absence, and leaves the store unchanged — in the Task
Registry and in the Persistent Store alike. -/
theorem c8_empty_name_add (name : String) (j : JsonState) (d : DbState)
    (h : pyStrip name = "") :
    add_task name j = (none, j) ∧ db_add_task name d = (none, d) := by
  unfold add_task db_add_task
  simp [h]

/-- Witness for C8 at a concrete whitespace-only name. -/
theorem c8_empty_name_add_witness :
    pyStrip " \t " = "" ∧
    add_task " \t " json0 = (none, json0) ∧
    db_add_task " \t " db0 = (none, db0) :=
  ⟨by decide,
   (c8_empty_name_add " \t " json0 db0 (by decide)).1,
   (c8_empty_name_add " \t " json0 db0 (by decide)).2⟩

/-- C9: `db_clear_completed_tasks` returns the number of completed tasks,
retains exactly the not-completed ones, keeps every pending task, and drops
every completed one. -/
theorem c9_clear_completed (s : DbState) :
    (db_clear_completed_tasks s).1 = (s.tasks.filter (fun t => t.completed)).length ∧
    (db_clear_completed_tasks s).2.tasks = s.tasks.filter (fun t => t.completed = false) ∧
    (∀ t ∈ s.tasks, t.completed = false → t ∈ (db_clear_completed_tasks s).2.tasks) ∧
    (∀ t ∈ s.tasks, t.completed = true → t ∉ (db_clear_completed_tasks s).2.tasks) := by
  unfold db_clear_completed_tasks
  refine ⟨rfl, ?_, ?_, ?_⟩
  · exact List.filter_congr (fun t _ => by cases h : t.completed <;> simp [h])
  · intro t ht hc
    simp [List.mem_filter, ht, hc]
  · intro t ht hc
    simp [List.mem_filter, hc]

/-- C10: the statistics always satisfy total = completed + pending with all
counts non-negative, and the message count equals the number of stored
conversation rows. -/
theorem c10_stats_invariant (s : DbState) :
    (db_get_stats s).total_tasks
      = (db_get_stats s).completed_tasks + (db_get_stats s).pending_tasks ∧
    0 ≤ (db_get_stats s).total_tasks ∧
    0 ≤ (db_get_stats s).completed_tasks ∧
    0 ≤ (db_get_stats s).pending_tasks ∧
    (db_get_stats s).conversation_messages = (s.history.length : Int) := by
  unfold db_get_stats
  refine ⟨by ring, Int.natCast_nonneg _, Int.natCast_nonneg _, ?_, rfl⟩
  have h : (s.tasks.filter (fun t => t.completed)).length ≤ s.tasks.length :=
    List.length_filter_le _ _
  simp only [sub_nonneg]
  exact_mod_cast h

/-- When no task id compares equal, `completeTaskList` finds nothing and
returns the list unchanged. -/
theorem completeTaskList_not_found (v : PyVal) :
    ∀ l : List Task, (∀ t ∈ l, idEqVal t.id v = false) →
      completeTaskList v l = (none, l) := by
  intro l
  induction l with
  | nil => intro _; rfl
  | cons t ts ih =>
    intro h
    have ht : idEqVal t.id v = false := h t (List.mem_cons_self t ts)
    have hts := ih (fun x hx => h x (List.mem_cons_of_mem t hx))
    simp [completeTaskList, ht, hts]

/-- C6: the dispatch step is total and converts every failure into a
diagnostic string: unknown function names, a missing `task_id`, an absent
task id, and any exception raised by one of the three dispatched operations
(stated for an arbitrary raising implementation `ops`). -/
theorem c6_execute_total (s : JsonState) (args : List (String × PyVal))
    (nm : String) (tid : Int) :
    (nm ≠ "add_task" → nm ≠ "list_tasks" → nm ≠ "complete_task" →
      execute_function_call pureTaskOps ⟨nm, args⟩ s = ("Unknown function: " ++ nm, s)) ∧
    (lookupArg args "task_id" = none →
      execute_function_call pureTaskOps ⟨"complete_task", args⟩ s
        = ("Error: No task_id provided.", s)) ∧
    (lookupArg args "task_id" = some (.int tid) → (∀ t ∈ s.tasks, t.id ≠ tid) →
      execute_function_call pureTaskOps ⟨"complete_task", args⟩ s
        = ("Task with ID " ++ toString tid ++ " not found.", s)) ∧
    (∀ (ops : TaskOps) (e : String) (v : PyVal),
      lookupArg args "task_id" = some v → v ≠ .pynone →
      ops.completeTask v s = .error e →
      execute_function_call ops ⟨"complete_task", args⟩ s
        = ("Error executing complete_task: " ++ e, s)) ∧
    (∀ (ops : TaskOps) (e : String),
      ops.addTask ((lookupArg args "task_name").getD (.str "")) s = .error e →
      execute_function_call ops ⟨"add_task", args⟩ s
        = ("Error executing add_task: " ++ e, s)) ∧
    (∀ (ops : TaskOps) (e : String),
      ops.listTasks s = .error e →
      execute_function_call ops ⟨"list_tasks", args⟩ s
        = ("Error executing list_tasks: " ++ e, s)) := by
  refine ⟨?_, ?_, ?_, ?_, ?_, ?_⟩
  · intro h1 h2 h3
    simp [execute_function_call, h1, h2, h3]
  · intro h
    simp [execute_function_call, h]
  · intro h habs
    have hnf : completeTaskList (.int tid) s.tasks = (none, s.tasks) :=
      completeTaskList_not_found _ _ (fun t ht => by
        simp [idEqVal]
        exact habs t ht)
    simp [execute_function_call, h, pureTaskOps, complete_taskV, hnf, PyVal.toStr]
  · intro ops e v h hv herr
    cases v with
    | pynone => exact absurd rfl hv
    | str a => simp [execute_function_call, h, herr]
    | int n => simp [execute_function_call, h, herr]
  · intro ops e herr
    simp [execute_function_call, herr]
  · intro ops e herr
    simp [execute_function_call, herr]

/-- Witness for C6 at concrete inputs, one per diagnostic branch. -/
theorem c6_execute_total_witness :
    execute_function_call pureTaskOps ⟨"frobnicate", []⟩ json0
      = ("Unknown function: frobnicate", json0) ∧
    execute_function_call pureTaskOps ⟨"complete_task", []⟩ json0
      = ("Error: No task_id provided.", json0) ∧
    execute_function_call pureTaskOps ⟨"complete_task", [("task_id", .int 5)]⟩ json0
      = ("Task with ID 5 not found.", json0) ∧
    execute_function_call failingOps ⟨"complete_task", [("task_id", .int 5)]⟩ json0
      = ("Error executing complete_task: disk full", json0) ∧
    execute_function_call failingOps ⟨"add_task", [("task_name", .str "x")]⟩ json0
      = ("Error executing add_task: disk full", json0) ∧
    execute_function_call failingOps ⟨"list_tasks", []⟩ json0
      = ("Error executing list_tasks: disk full", json0) :=
  ⟨(c6_execute_total json0 [] "frobnicate" 5).1 (by decide) (by decide) (by decide),
   (c6_execute_total json0 [] "frobnicate" 5).2.1 (by decide),
   (c6_execute_total json0 [("task_id", .int 5)] "complete_task" 5).2.2.1 (by decide)
     (by decide),
   (c6_execute_total json0 [("task_id", .int 5)] "complete_task" 5).2.2.2.1
     failingOps "disk full" (.int 5) (by decide) (by decide) rfl,
   (c6_execute_total json0 [("task_name", .str "x")] "add_task" 5).2.2.2.2.1
     failingOps "disk full" rfl,
   (c6_execute_total json0 [] "list_tasks" 5).2.2.2.2.2 failingOps "disk full" rfl⟩

/-- `completeUpd` never changes a row's id. -/
theorem completeUpd_id (task_id now : Nat) (t : DbTask) :
    (completeUpd task_id now t).id = t.id := by
  unfold completeUpd
  split <;> rfl

/-- `db_complete_task` unfolded on the result of the SELECT. -/
theorem db_complete_task_eq (task_id now : Nat) (s : DbState) :
    db_complete_task task_id now s =
      match (s.tasks.map (completeUpd task_id now)).find? (fun t => t.id = task_id) with
      | some t => (some t.view, { s with tasks := s.tasks.map (completeUpd task_id now) })
      | none => (none, { s with tasks := s.tasks.map (completeUpd task_id now) }) :=
  rfl

/-- Every updated row that matches the id is completed and stamped `now`. -/
theorem completeUpd_matching (task_id now : Nat) (s : DbState) :
    ∀ t ∈ s.tasks.map (completeUpd task_id now),
      t.id = task_id → t.completed = true ∧ t.completedAt = some now := by
  intro t ht hid
  obtain ⟨t0, ht0, rfl⟩ := List.mem_map.1 ht
  unfold completeUpd at hid ⊢
  by_cases h : t0.id = task_id
  · simp [h]
  · simp [h] at hid

/-- Completing an id that is present: the call returns a completed view, and
afterwards every row carrying that id is completed with `completed_at` equal
to the instant of this call; such a row exists (so the call can be chained). -/
theorem db_complete_task_present (task_id now : Nat) (s : DbState)
    (hex : ∃ t ∈ s.tasks, t.id = task_id) :
    (∃ w, (db_complete_task task_id now s).1 = some w ∧ w.completed = true) ∧
    (∀ t ∈ (db_complete_task task_id now s).2.tasks,
        t.id = task_id → t.completed = true ∧ t.completedAt = some now) ∧
    (∃ t ∈ (db_complete_task task_id now s).2.tasks, t.id = task_id) := by
  obtain ⟨t0, ht0, hid⟩ := hex
  have hmem : completeUpd task_id now t0 ∈ s.tasks.map (completeUpd task_id now) :=
    List.mem_map_of_mem _ ht0
  have hfind : ((s.tasks.map (completeUpd task_id now)).find?
      (fun t => t.id = task_id)).isSome :=
    List.find?_isSome.2 ⟨_, hmem, by simp [completeUpd_id, hid]⟩
  cases hf : (s.tasks.map (completeUpd task_id now)).find? (fun t => t.id = task_id) with
  | none => rw [hf] at hfind; simp at hfind
  | some w =>
    have hwmem : w ∈ s.tasks.map (completeUpd task_id now) := List.mem_of_find?_eq_some hf
    have hwid : w.id = task_id := by simpa using List.find?_some hf
    have hwc := completeUpd_matching task_id now s w hwmem hwid
    rw [db_complete_task_eq, hf]
    refine ⟨⟨w.view, rfl, hwc.1⟩, ?_, ⟨completeUpd task_id now t0, hmem, ?_⟩⟩
    · exact completeUpd_matching task_id now s
    · rw [completeUpd_id]
      exact hid

/-- C3: completing an absent task id returns `none` and leaves the store
unchanged; completing a present id marks it completed; completing it again
keeps the flag true and re-stamps `completed_at` with the instant of the
latest call. -/
theorem c3_complete_semantics (s : DbState) (task_id n₁ n₂ : Nat) :
    ((∀ t ∈ s.tasks, t.id ≠ task_id) → db_complete_task task_id n₁ s = (none, s)) ∧
    ((∃ t ∈ s.tasks, t.id = task_id) →
      (∃ w, (db_complete_task task_id n₁ s).1 = some w ∧ w.completed = true) ∧
      (∀ t ∈ (db_complete_task task_id n₁ s).2.tasks,
          t.id = task_id → t.completed = true ∧ t.completedAt = some n₁) ∧
      (∃ w, (db_complete_task task_id n₂ (db_complete_task task_id n₁ s).2).1 = some w ∧
          w.completed = true) ∧
      (∀ t ∈ (db_complete_task task_id n₂ (db_complete_task task_id n₁ s).2).2.tasks,
          t.id = task_id → t.completed = true ∧ t.completedAt = some n₂)) := by
  constructor
  · intro habs
    have hmap : s.tasks.map (completeUpd task_id n₁) = s.tasks := by
      have : ∀ t ∈ s.tasks, completeUpd task_id n₁ t = id t := by
        intro t ht
        unfold completeUpd
        simp [habs t ht]
      rw [List.map_congr_left this, List.map_id]
    have hnone : (s.tasks.map (completeUpd task_id n₁)).find?
        (fun t => t.id = task_id) = none := by
      rw [hmap]
      exact List.find?_eq_none.2 (fun t ht => by simp [habs t ht])
    rw [db_complete_task_eq, hnone, hmap]
  · intro hex
    have h₁ := db_complete_task_present task_id n₁ s hex
    have h₂ := db_complete_task_present task_id n₂ (db_complete_task task_id n₁ s).2 h₁.2.2
    exact ⟨h₁.1, h₁.2.1, h₂.1, h₂.2.1⟩

/-- Witness for C3 at a concrete store: task 1 exists; the double completion
keeps the flag and re-stamps; completing the absent id 2 is a no-op. -/
theorem c3_complete_semantics_witness :
    db_complete_task 2 7 ⟨[⟨1, "x", false, none⟩], 2, []⟩
      = (none, ⟨[⟨1, "x", false, none⟩], 2, []⟩) ∧
    (∃ w, (db_complete_task 1 5 ⟨[⟨1, "x", false, none⟩], 2, []⟩).1 = some w ∧
        w.completed = true) ∧
    (∀ t ∈ (db_complete_task 1 6
        (db_complete_task 1 5 ⟨[⟨1, "x", false, none⟩], 2, []⟩).2).2.tasks,
      t.id = 1 → t.completed = true ∧ t.completedAt = some 6) := by
  refine ⟨(c3_complete_semantics ⟨[⟨1, "x", false, none⟩], 2, []⟩ 2 7 7).1 ?_,
    ((c3_complete_semantics ⟨[⟨1, "x", false, none⟩], 2, []⟩ 1 5 6).2 ?_).1,
    ((c3_complete_semantics ⟨[⟨1, "x", false, none⟩], 2, []⟩ 1 5 6).2 ?_).2.2.2⟩
  · decide
  · exact ⟨⟨1, "x", false, none⟩, by decide, rfl⟩
  · exact ⟨⟨1, "x", false, none⟩, by decide, rfl⟩

/-- Truncating the right operand of an append does not change a truncation
of the whole append. -/
theorem take_append_take {α : Type} (u v : List α) (B : Nat) :
    (u ++ v.take B).take B = (u ++ v).take B := by
  rw [List.take_append_eq_append_take, List.take_append_eq_append_take, List.take_take]
  rw [Nat.min_eq_left (Nat.sub_le _ _)]

/-- Running `appendAll` from any already-trimmed state retains the `B` most
recent of all messages ever seen (stored newest-first). -/
theorem appendAll_history (B : Nat) :
    ∀ (ms : List Msg) (s : DbState), s.history.take B = s.history →
      (appendAll B ms s).history = (ms.reverse ++ s.history).take B := by
  intro ms
  induction ms with
  | nil =>
    intro s h
    show s.history = s.history.take B
    exact h.symm
  | cons m rest ih =>
    intro s h
    have hstep : appendAll B (m :: rest) s
        = appendAll B rest (db_append_message m.role m.content B s).2 := rfl
    have htrim : ((db_append_message m.role m.content B s).2).history.take B
        = ((db_append_message m.role m.content B s).2).history := by
      simp only [db_append_message]
      rw [List.take_take, Nat.min_self]
    rw [hstep, ih _ htrim]
    show (rest.reverse ++ (m :: s.history).take B).take B
        = ((m :: rest).reverse ++ s.history).take B
    rw [take_append_take]
    simp

/-- C2: after any sequence of `N` appends with retention bound `B ≥ 1`
starting from the empty store, the buffer holds exactly `min N B` messages,
retrieval returns the `B` most recently appended messages in chronological
order, and no intermediate state ever holds more than `B` messages. -/
theorem c2_buffer_bounded (ms : List Msg) (B : Nat) (hB : 1 ≤ B) :
    (appendAll B ms db0).history.length = min ms.length B ∧
    db_get_history B (appendAll B ms db0) = ms.drop (ms.length - B) ∧
    (∀ n : Nat, (appendAll B (ms.take n) db0).history.length ≤ B) := by
  have hmain : ∀ l : List Msg, (appendAll B l db0).history = l.reverse.take B := by
    intro l
    have h := appendAll_history B l db0 (by simp [db0])
    simpa [db0] using h
  refine ⟨?_, ?_, ?_⟩
  · rw [hmain, List.length_take, List.length_reverse, Nat.min_comm]
  · show ((appendAll B ms db0).history.take B).reverse = ms.drop (ms.length - B)
    rw [hmain, List.take_take, Nat.min_self, ← List.rtake_eq_reverse_take_reverse]
    simp [List.rtake]
  · intro n
    rw [hmain, List.length_take]
    exact Nat.min_le_left _ _

/-- Witness for C2: three appends with bound 2 retain the last two messages
in order. -/
theorem c2_buffer_bounded_witness :
    (appendAll 2 [⟨"user", "a"⟩, ⟨"model", "b"⟩, ⟨"user", "c"⟩] db0).history.length = 2 ∧
    db_get_history 2 (appendAll 2 [⟨"user", "a"⟩, ⟨"model", "b"⟩, ⟨"user", "c"⟩] db0)
      = [⟨"model", "b"⟩, ⟨"user", "c"⟩] := by
  have h := c2_buffer_bounded [⟨"user", "a"⟩, ⟨"model", "b"⟩, ⟨"user", "c"⟩] 2 (by decide)
  exact ⟨by simpa using h.1, by simpa using h.2.1⟩

/-- C4 counterexample: the claim says both front ends pass the same history
to the gateway's send and append the same final text.  With a gateway whose
reply encodes the length of the history it was shown, on the first message
"hi" from the empty state the CLI turn produces "L1" (it sends the
post-append history, which already contains the user message) while the web
turn produces "L0" (it sends `history[:-1]`), so the final texts differ. -/
theorem c4_counterexample :
    (run_cli_turn lenOracle "hi" ⟨json0, db0⟩).1 = "L1" ∧
    (api_chat lenOracle "hi" ⟨json0, db0⟩).1 = "L0" ∧
    (run_cli_turn lenOracle "hi" ⟨json0, db0⟩).1 ≠ (api_chat lenOracle "hi" ⟨json0, db0⟩).1 := by
  refine ⟨?_, ?_, ?_⟩ <;> decide

/-- C4 (amended): both front ends append the user message, run identical
dispatch/summarize processing, and append the final text; they differ only
in the history passed to the initial send — the CLI passes the post-append
history, the web front end the same history without its last element — and
whenever the gateway's reply is unaffected by that difference the two turns
are observationally equal. -/
theorem c4_same_pipeline_modulo_history (o : SendOracle) (msg : String) (st : SysState) :
    (∀ (resp : GeminiResponse) (q : SysState),
        process_ai_response o resp q = process_chat_response o resp q) ∧
    (o msg (get_history (append_message "user" msg st.db).2)
        = o msg (get_history (append_message "user" msg st.db).2).dropLast →
      run_cli_turn o msg st = api_chat o msg st) := by
  have hp : ∀ (o' : SendOracle) (resp : GeminiResponse) (q : SysState),
      process_ai_response o' resp q = process_chat_response o' resp q := by
    intro o' resp q
    rfl
  refine ⟨hp o, fun h => ?_⟩
  simp only [run_cli_turn, api_chat]
  rw [← h, hp]

/-- Witness for C4 (amended): with a history-insensitive gateway the two
front ends produce identical turns. -/
theorem c4_same_pipeline_modulo_history_witness :
    run_cli_turn constOracle "hi" ⟨json0, db0⟩ = api_chat constOracle "hi" ⟨json0, db0⟩ :=
  (c4_same_pipeline_modulo_history constOracle "hi" ⟨json0, db0⟩).2 rfl

/-- C7 counterexample: the claim says an identifier is never assigned again
after the task holding it is deleted.  In the code, `_get_next_id` is one
more than the current maximum id, so after add "a" (id 1), delete 1, the
next add is assigned id 1 again. -/
theorem c7_counterexample :
    (add_task "a" json0).1 = some { id := 1, name := "a", completed := false } ∧
    (delete_task 1 (add_task "a" json0).2).1 = true ∧
    (add_task "b" (delete_task 1 (add_task "a" json0).2).2).1
      = some { id := 1, name := "b", completed := false } := by
  refine ⟨?_, ?_, ?_⟩ <;> decide

/-- Any starting value is bounded by a left fold of `max`, as is every
element folded over. -/
theorem foldl_max_le (is : List Int) :
    ∀ i : Int, i ≤ is.foldl max i ∧ ∀ j ∈ is, j ≤ is.foldl max i := by
  induction is with
  | nil => intro i; exact ⟨le_refl i, by simp⟩
  | cons a as ih =>
    intro i
    have h := ih (max i a)
    refine ⟨le_trans (le_max_left i a) h.1, ?_⟩
    intro j hj
    rcases List.mem_cons.1 hj with rfl | hj'
    · exact le_trans (le_max_right i j) h.1
    · exact h.2 j hj'

/-- Every stored id is strictly below the next id to be assigned. -/
theorem _get_next_id_gt (tasks : List Task) :
    ∀ t ∈ tasks, t.id < _get_next_id tasks := by
  intro t ht
  cases tasks with
  | nil => cases ht
  | cons t0 ts =>
    show t.id < (ts.map Task.id).foldl max t0.id + 1
    rw [Int.lt_add_one_iff]
    rcases List.mem_cons.1 ht with rfl | hts
    · exact (foldl_max_le (ts.map Task.id) t.id).1
    · exact (foldl_max_le (ts.map Task.id) t0.id).2 t.id (List.mem_map_of_mem Task.id hts)

/-- `complete_task` never changes the stored sequence of ids. -/
theorem completeTaskList_map_id (v : PyVal) :
    ∀ l : List Task, ((completeTaskList v l).2).map Task.id = l.map Task.id := by
  intro l
  induction l with
  | nil => rfl
  | cons t ts ih =>
    by_cases h : idEqVal t.id v <;> simp [completeTaskList, h, ih]

/-- Each single Task Registry operation preserves distinctness of ids. -/
theorem applyOp_nodup (op : TaskOp) (s : JsonState)
    (h : (s.tasks.map Task.id).Nodup) :
    ((applyOp op s).tasks.map Task.id).Nodup := by
  cases op with
  | addT nm =>
    simp only [applyOp, add_task]
    split
    · exact h
    · rw [List.map_append]
      have hfresh : _get_next_id s.tasks ∉ s.tasks.map Task.id := by
        intro hmem
        obtain ⟨t, ht, hid⟩ := List.mem_map.1 hmem
        exact absurd hid (ne_of_lt (_get_next_id_gt s.tasks t ht))
      simp [List.nodup_append, h, hfresh]
  | completeT tid =>
    simp only [applyOp, complete_task, complete_taskV]
    rw [completeTaskList_map_id]
    exact h
  | deleteT tid =>
    simp only [applyOp, delete_task]
    split
    · exact h.sublist ((List.filter_sublist s.tasks).map Task.id)
    · exact h

/-- Distinctness of ids holds in every state reachable by Task Registry
operations. -/
theorem runOps_nodup_aux :
    ∀ (l : List TaskOp) (s : JsonState), (s.tasks.map Task.id).Nodup →
      ((l.foldl (fun s op => applyOp op s) s).tasks.map Task.id).Nodup := by
  intro l
  induction l with
  | nil => intro s h; exact h
  | cons op rest ih => intro s h; exact ih _ (applyOp_nodup op s h)

/-- In `completeTaskList`, every pre-existing task survives with its id and
name unchanged (only `completed` may change). -/
theorem completeTaskList_mem (v : PyVal) :
    ∀ (l : List Task) (t : Task), t ∈ l →
      ∃ t' ∈ (completeTaskList v l).2, t'.id = t.id ∧ t'.name = t.name := by
  intro l
  induction l with
  | nil => intro t ht; cases ht
  | cons t0 ts ih =>
    intro t ht
    by_cases h : idEqVal t0.id v
    · rcases List.mem_cons.1 ht with rfl | hts
      · exact ⟨{ t with completed := true }, by simp [completeTaskList, h], rfl, rfl⟩
      · exact ⟨t, by simp [completeTaskList, h, hts], rfl, rfl⟩
    · rcases List.mem_cons.1 ht with rfl | hts
      · exact ⟨t, by simp [completeTaskList, h], rfl, rfl⟩
      · obtain ⟨t', ht', hid, hnm⟩ := ih t hts
        exact ⟨t', by simp [completeTaskList, h, ht'], hid, hnm⟩

/-- C7 (amended): in every state reachable by add/complete/delete from the
empty store, no two live tasks share an id; an add never disturbs existing
tasks; a complete preserves every task's id and name; a delete removes only
the matching id.  (The original claim's "never reused after deletion" fails:
see the counterexample — the registry's next id is max+1, so a deleted
maximal id is reassigned.) -/
theorem c7_ids_stable_but_reusable (ops : List TaskOp) :
    ((runOps ops).tasks.map Task.id).Nodup ∧
    (∀ (nm : String) (t : Task), t ∈ (runOps ops).tasks →
        t ∈ (applyOp (.addT nm) (runOps ops)).tasks) ∧
    (∀ (tid : Int) (t : Task), t ∈ (runOps ops).tasks →
        ∃ t' ∈ (applyOp (.completeT tid) (runOps ops)).tasks,
          t'.id = t.id ∧ t'.name = t.name) ∧
    (∀ (tid : Int) (t : Task), t ∈ (runOps ops).tasks → t.id ≠ tid →
        t ∈ (applyOp (.deleteT tid) (runOps ops)).tasks) := by
  refine ⟨runOps_nodup_aux ops json0 (by simp [json0]), ?_, ?_, ?_⟩
  · intro nm t ht
    simp only [applyOp, add_task]
    split
    · exact ht
    · simp only [JsonState.tasks]
      exact List.mem_append_left _ ht
  · intro tid t ht
    exact completeTaskList_mem (.int tid) (runOps ops).tasks t ht
  · intro tid t ht hne
    simp only [applyOp, delete_task]
    split
    · simp only [JsonState.tasks]
      exact List.mem_filter.2 ⟨ht, by simp [hne]⟩
    · exact ht

/-- Witness for C7 (amended) on a concrete reachable state. -/
theorem c7_ids_stable_but_reusable_witness :
    ((runOps [.addT "a", .addT "b"]).tasks.map Task.id).Nodup ∧
    ({ id := 1, name := "a", completed := false } : Task)
      ∈ (applyOp (.deleteT 2) (runOps [.addT "a", .addT "b"])).tasks := by
  have h := c7_ids_stable_but_reusable [.addT "a", .addT "b"]
  exact ⟨h.1, h.2.2.2 2 { id := 1, name := "a", completed := false } (by decide) (by decide)⟩

end MiniAssistant
